import Mathlib

set_option maxRecDepth 10000

/-!
Verification of the CRSF receiver library (`ELRS_Serial.py`): frame
synchronization, CRC8 validation, RC-channel / link-statistics decoding and
battery-telemetry encoding, shallowly embedded over `Nat` byte lists.
-/

namespace ELRS

/-- `CRSF_SYNC = 0xC8`. -/
def CRSF_SYNC : Nat := 0xC8

/-- `PacketTypes.RC_CHANNELS_PACKED = 0x16`. -/
def RC_CHANNELS_PACKED : Nat := 0x16

/-- `PacketTypes.LINK_STATISTICS = 0x14`. -/
def LINK_STATISTICS : Nat := 0x14

/-- `PacketTypes.BATTERY_SENSOR = 0x08`. -/
def BATTERY_SENSOR : Nat := 0x08

/-- The `for _ in range(8)` loop body of `_crc8_dvb_s2`: if the high bit is
set, shift left and xor with `0xD5`, else just shift left.  The accumulator is
not masked inside the loop, exactly as in the source. -/
def crc8Rounds : Nat → Nat → Nat
  | 0, crc => crc
  | n + 1, crc => crc8Rounds n (if crc &&& 0x80 ≠ 0 then (crc <<< 1) ^^^ 0xD5 else crc <<< 1)

/-- `_crc8_dvb_s2(crc, a)`: xor the byte in, run the 8 rounds, then mask the
result to 8 bits (`return crc & 0xFF`). -/
def crc8_dvb_s2 (crc a : Nat) : Nat :=
  crc8Rounds 8 (crc ^^^ a) &&& 0xFF

/-- `_crc8_data(data)`: fold `_crc8_dvb_s2` over the bytes starting from 0. -/
def crc8_data (data : List Nat) : Nat :=
  data.foldl crc8_dvb_s2 0

/-- Reference DVB-S2 round, following the spec's words: shift left, xor the
polynomial `0xD5` when bit 7 of the accumulator was set, and reduce the result
to 8 bits at every iteration. -/
def crc8SpecRound (crc : Nat) : Nat :=
  (if crc.testBit 7 then (crc <<< 1) ^^^ 0xD5 else crc <<< 1) % 256

/-- Eight reference rounds. -/
def crc8SpecRounds : Nat → Nat → Nat
  | 0, crc => crc
  | n + 1, crc => crc8SpecRounds n (crc8SpecRound crc)

/-- Reference DVB-S2 CRC8 over a byte sequence, following the spec's words:
accumulator starts at 0, each input byte is xored in, then the 8 per-iteration
masked rounds run. -/
def crc8_spec (data : List Nat) : Nat :=
  data.foldl (fun crc a => crc8SpecRounds 8 (crc ^^^ a)) 0

set_option maxRecDepth 8192 in
theorem crc8_step_agree : ∀ x < 256, crc8Rounds 8 x &&& 0xFF = crc8SpecRounds 8 x ∧ crc8SpecRounds 8 x < 256 := by
  decide

/-- `_validate_frame(frame)`: compare the CRC8 of `frame[2:-1]` with the last
byte `frame[-1]`.  Every caller passes a frame of length at least 4, so the
`getLastD 0` default is never taken. -/
def validate_frame (frame : List Nat) : Bool :=
  crc8_data ((frame.drop 2).dropLast) == frame.getLastD 0

/-- Microsecond conversion on line 110, `int(value * 0.62 + 881)`.  Under
IEEE-754 double semantics `int(v * 0.62 + 881)` equals `881 + 62 * v / 100`
(floor division) for every 11-bit `v` in `0..2047` (checked exhaustively), so
the embedding uses the exact arithmetic form. -/
def convertUs (v : Nat) : Nat := 881 + 62 * v / 100

/-- The conversion the claim describes instead: `round(v * 0.62 + 881)`, the
nearest integer to the exact value `(62 * v + 88100) / 100` (never a tie for
`v ≤ 2047` that rounds differently half-up versus half-even, since ties need
`62 * v + 50 ≡ 0 [MOD 100]`, and `62 * v + 50` is never a multiple of 100 at a
half). -/
def roundSpecUs (v : Nat) : Nat := (62 * v + 50) / 100 + 881

/-- The 11-bit extraction of the loop body of `_decode_channels`: combine up
to 3 bytes of `channel_data` in little-endian order — the second and third
only when in range (`if byte_index + k < len(channel_data)`) — then shift
right by `bit_index` and mask to 11 bits. -/
def channelRaw (cd : List Nat) (i : Nat) (hb : i * 11 / 8 < cd.length) : Nat :=
  let byteIndex := i * 11 / 8
  let bitIndex := i * 11 % 8
  let raw0 := cd.get ⟨byteIndex, hb⟩
  let raw1 := if byteIndex + 1 < cd.length then raw0 ||| (cd.getD (byteIndex + 1) 0) <<< 8 else raw0
  let raw2 := if byteIndex + 2 < cd.length then raw1 ||| (cd.getD (byteIndex + 2) 0) <<< 16 else raw1
  (raw2 >>> bitIndex) &&& 0x7FF

/-- The `for i in range(16)` loop of `_decode_channels`, one channel per
step: `n` counts the remaining iterations and `i` is the loop index.  The
first byte of each window is read unguarded (`channel_data[byte_index]`), so
an out-of-range `byte_index` is a Python `IndexError`: the `Bool` component
is `false` when that happens, and the channel map keeps the updates made
before the failing index. -/
def decodeChannelsGo (cd : List Nat) : Nat → Nat → (Fin 16 → Nat) → (Fin 16 → Nat) × Bool
  | _, 0, chs => (chs, true)
  | i, n + 1, chs =>
    if h : i < 16 then
      if hb : i * 11 / 8 < cd.length then
        decodeChannelsGo cd (i + 1) n (Function.update chs ⟨i, h⟩ (convertUs (channelRaw cd i hb)))
      else (chs, false)
    else (chs, true)

/-- `_decode_channels(data)`: channel data starts at byte 3 of the frame
(`channel_data = data[3:]`), then the 16-iteration loop runs.  Returns the
updated channel map (indexed by `Fin 16`, index `i` standing for dictionary
key `i + 1`) and whether the loop completed without an `IndexError`. -/
def decode_channels (data : List Nat) (chs : Fin 16 → Nat) : (Fin 16 → Nat) × Bool :=
  decodeChannelsGo (data.drop 3) 0 16 chs

/-- The `LinkStats` dataclass. -/
structure LinkStats where
  rssi1 : Int
  rssi2 : Int
  link_quality : Int
  snr : Int
deriving DecidableEq

/-- `_decode_link_stats(data)`: reads `data[3] .. data[6]` unguarded; `none`
models the `IndexError` raised when the frame is shorter than 7 bytes, in
which case `self.link_stats` is not assigned. -/
def decode_link_stats (data : List Nat) : Option LinkStats :=
  match (data[3]? : Option Nat), (data[4]? : Option Nat), (data[5]? : Option Nat), (data[6]? : Option Nat) with
  | some b3, some b4, some b5, some b6 =>
    some { rssi1 := -(b3 : Int), rssi2 := -(b4 : Int), link_quality := (b5 : Int),
           snr := if b6 < 128 then (b6 : Int) else (b6 : Int) - 256 }
  | _, _, _, _ => none

/-- Receiver state: the input buffer, the channel dictionary (keys `1..16`
modelled as `Fin 16`, index `i` for key `i + 1`), and the optional link stats.
`handled` counts the calls to `_handle_packet` (frames that passed CRC
validation) and `err` records an uncaught `IndexError` escaping a decoder —
both are observers for stating properties, not source state. -/
structure RxState where
  buf : List Nat
  channels : Fin 16 → Nat
  linkStats : Option LinkStats
  handled : Nat
  err : Bool

/-- State after `__init__`: empty buffer, all 16 channels at 1500, no link
stats yet. -/
def initState : RxState :=
  { buf := [], channels := fun _ => 1500, linkStats := none, handled := 0, err := false }

/-- `_handle_packet(packet_type, data)`: dispatch on the type byte; unknown
types do nothing. -/
def handle_packet (packet_type : Nat) (data : List Nat) (s : RxState) : RxState :=
  if packet_type = RC_CHANNELS_PACKED then
    let r := decode_channels data s.channels
    { s with channels := r.1, err := s.err || !r.2 }
  else if packet_type = LINK_STATISTICS then
    match decode_link_stats data with
    | some ls => { s with linkStats := some ls }
    | none => { s with err := true }
  else s

/-- The `while len(self.input_buffer) > 2` loop of `update`, with explicit
fuel (each iteration that continues removes at least one buffered byte, so
fuel equal to the buffer length always suffices).  Cases, in source order:
drop one byte when the head is not the sync byte; drop one byte when
`length + 2` is outside `[4, 64]`; extract a complete candidate frame, count
and dispatch it when the CRC matches (stopping the cycle if a decoder raises);
otherwise stop and wait for more bytes. -/
def processLoopF : Nat → RxState → RxState
  | 0, s => s
  | fuel + 1, s =>
    match s.buf with
    | b0 :: b1 :: b2 :: t =>
      if b0 ≠ CRSF_SYNC then
        processLoopF fuel { s with buf := b1 :: b2 :: t }
      else if 64 < b1 + 2 ∨ b1 + 2 < 4 then
        processLoopF fuel { s with buf := b1 :: b2 :: t }
      else if b1 + 2 ≤ (b0 :: b1 :: b2 :: t).length then
        let packet := (b0 :: b1 :: b2 :: t).take (b1 + 2)
        let s' := { s with buf := (b0 :: b1 :: b2 :: t).drop (b1 + 2) }
        if validate_frame packet then
          let s'' := handle_packet b2 packet { s' with handled := s'.handled + 1 }
          if s''.err then s'' else processLoopF fuel s''
        else
          processLoopF fuel s'
      else s
    | _ => s

/-- One `update` cycle fed with `bytes` newly read from the serial port
(the spec's `process_incoming`): append to the buffer, then run the
synchronizer loop to completion. -/
def feed (bytes : List Nat) (s : RxState) : RxState :=
  processLoopF (s.buf ++ bytes).length { s with buf := s.buf ++ bytes }

/-- `get_channels()`: a snapshot of the channel dictionary as the association
list `[(1, ch1), ..., (16, ch16)]`. -/
def get_channels (s : RxState) : List (Nat × Nat) :=
  List.ofFn fun j : Fin 16 => ((j : Nat) + 1, s.channels j)

/-- A structurally valid frame: sync head, consistent length byte, total
length within `[4, 64]`, and matching CRC. -/
def ValidFrame (F : List Nat) : Prop :=
  F.headD 0 = CRSF_SYNC ∧ F.length = F.getD 1 0 + 2 ∧ 4 ≤ F.length ∧ F.length ≤ 64 ∧
    validate_frame F = true

instance (F : List Nat) : Decidable (ValidFrame F) := by
  unfold ValidFrame; infer_instance

/-- `struct.pack('>H', v)` for `0 ≤ v < 2^16`: two big-endian bytes. -/
def pack16be (v : Nat) : List Nat := [v / 256, v % 256]

/-- The frame built by `send_battery_telemetry` from the already-scaled
integer values (`voltage_scaled = int(voltage * 10)`,
`current_scaled = int(current * 10)`): payload packed as `'>HHHB'`, header
`[SYNC, len(payload) + 2, BATTERY_SENSOR]`, then the CRC8 of type + payload. -/
def battery_frame (voltage_scaled current_scaled mah remaining_percent : Nat) : List Nat :=
  let payload := pack16be voltage_scaled ++ pack16be current_scaled ++ pack16be mah ++ [remaining_percent]
  let header := [CRSF_SYNC, payload.length + 2, BATTERY_SENSOR]
  header ++ payload ++ [crc8_data (BATTERY_SENSOR :: payload)]

/-- The generic frame builder named by the round-trip claim:
`[SYNC, len(payload) + 2, type, payload..., crc8([type] + payload)]`, the same
layout `send_battery_telemetry` emits. -/
def build_frame (t : Nat) (payload : List Nat) : List Nat :=
  CRSF_SYNC :: (payload.length + 2) :: t :: (payload ++ [crc8_data (t :: payload)])

lemma crc8_foldl_agree : ∀ (l : List Nat) (c : Nat), c < 256 → (∀ b ∈ l, b < 256) →
    l.foldl crc8_dvb_s2 c = l.foldl (fun crc a => crc8SpecRounds 8 (crc ^^^ a)) c ∧
      l.foldl crc8_dvb_s2 c < 256 := by
  intro l
  induction l with
  | nil => exact fun c hc _ => ⟨rfl, hc⟩
  | cons a t ih =>
    intro c hc hb
    have ha : a < 256 := hb a (List.mem_cons_self a t)
    have hx : c ^^^ a < 256 := by
      have := Nat.xor_lt_two_pow (n := 8) (by simpa using hc) (by simpa using ha)
      simpa using this
    have hstep := crc8_step_agree (c ^^^ a) hx
    have h1 : crc8_dvb_s2 c a = crc8SpecRounds 8 (c ^^^ a) := hstep.1
    have h2 : crc8_dvb_s2 c a < 256 := h1 ▸ hstep.2
    have iht := ih (crc8_dvb_s2 c a) h2 (fun b hbm => hb b (List.mem_cons_of_mem a hbm))
    refine ⟨?_, by simpa using iht.2⟩
    simp only [List.foldl_cons]
    rw [iht.1, h1]

/-- C4: for every byte sequence the CRC8 engine's result lies in `[0, 255]`
and agrees with the DVB-S2 reference definition (accumulator starts at 0,
each byte is xored in, then 8 shift/xor-`0xD5` rounds each reduced to 8
bits); the CRC of the empty sequence is 0. -/
theorem crc8_engine_matches_dvbs2 (l : List Nat) (h : ∀ b ∈ l, b < 256) :
    crc8_data l < 256 ∧ crc8_data l = crc8_spec l ∧ crc8_data [] = 0 := by
  have := crc8_foldl_agree l 0 (by norm_num) h
  exact ⟨this.2, this.1, rfl⟩

/-- Witness for C4 at the battery-payload byte sequence. -/
theorem crc8_engine_matches_dvbs2_witness :
    (∀ b ∈ [0x08, 0x00, 0x76, 0x00, 0x00, 0x00, 0x00, 100], b < 256) ∧
      (crc8_data [0x08, 0x00, 0x76, 0x00, 0x00, 0x00, 0x00, 100] < 256 ∧
        crc8_data [0x08, 0x00, 0x76, 0x00, 0x00, 0x00, 0x00, 100] =
          crc8_spec [0x08, 0x00, 0x76, 0x00, 0x00, 0x00, 0x00, 100] ∧
        crc8_data [] = 0) :=
  ⟨by decide, crc8_engine_matches_dvbs2 [0x08, 0x00, 0x76, 0x00, 0x00, 0x00, 0x00, 100] (by decide)⟩

/-- C5: round-trip — for every type byte and payload fitting the 64-byte
frame bound, the frame `[SYNC, len + 2, type, payload..., crc8(type :: payload)]`
passes `_validate_frame`. -/
theorem build_frame_round_trip (t : Nat) (payload : List Nat)
    (h : 2 + payload.length + 2 ≤ 64) :
    validate_frame (build_frame t payload) = true := by
  have hcons : t :: (payload ++ [crc8_data (t :: payload)]) =
      (t :: payload) ++ [crc8_data (t :: payload)] := by simp
  simp only [validate_frame, build_frame, List.drop_succ_cons, List.drop_zero, hcons,
    List.dropLast_concat, List.getLastD_cons, List.getLastD_concat, beq_self_eq_true]

/-- Witness for C5 at the link-statistics example frame. -/
theorem build_frame_round_trip_witness :
    2 + ([50, 60, 90, 10] : List Nat).length + 2 ≤ 64 ∧
      validate_frame (build_frame 0x14 [50, 60, 90, 10]) = true :=
  ⟨by decide, build_frame_round_trip 0x14 [50, 60, 90, 10] (by decide)⟩

lemma handle_packet_buf (pt : Nat) (data : List Nat) (s : RxState) :
    (handle_packet pt data s).buf = s.buf := by
  unfold handle_packet
  split_ifs with h1 h2
  · rfl
  · cases hls : decode_link_stats data <;> simp [hls]
  · rfl

lemma handle_packet_handled (pt : Nat) (data : List Nat) (s : RxState) :
    (handle_packet pt data s).handled = s.handled := by
  unfold handle_packet
  split_ifs with h1 h2
  · rfl
  · cases hls : decode_link_stats data <;> simp [hls]
  · rfl

lemma processLoopF_nil (fuel : Nat) (s : RxState) (h : s.buf = []) :
    processLoopF fuel s = s := by
  cases fuel with
  | zero => rfl
  | succ n => simp only [processLoopF, h]

/-- One unfolding step of the synchronizer loop on a buffer with more than
two bytes, stated without `let` bindings; definitionally equal to the body of
`processLoopF`. -/
lemma processLoopF_cons (fuel : Nat) (s : RxState) (b0 b1 b2 : Nat) (t : List Nat)
    (hb : s.buf = b0 :: b1 :: b2 :: t) :
    processLoopF (fuel + 1) s =
      if b0 ≠ CRSF_SYNC then processLoopF fuel { s with buf := b1 :: b2 :: t }
      else if 64 < b1 + 2 ∨ b1 + 2 < 4 then processLoopF fuel { s with buf := b1 :: b2 :: t }
      else if b1 + 2 ≤ (b0 :: b1 :: b2 :: t).length then
        if validate_frame ((b0 :: b1 :: b2 :: t).take (b1 + 2)) then
          if (handle_packet b2 ((b0 :: b1 :: b2 :: t).take (b1 + 2))
              { s with buf := (b0 :: b1 :: b2 :: t).drop (b1 + 2),
                       handled := s.handled + 1 }).err then
            handle_packet b2 ((b0 :: b1 :: b2 :: t).take (b1 + 2))
              { s with buf := (b0 :: b1 :: b2 :: t).drop (b1 + 2), handled := s.handled + 1 }
          else
            processLoopF fuel (handle_packet b2 ((b0 :: b1 :: b2 :: t).take (b1 + 2))
              { s with buf := (b0 :: b1 :: b2 :: t).drop (b1 + 2), handled := s.handled + 1 })
        else processLoopF fuel { s with buf := (b0 :: b1 :: b2 :: t).drop (b1 + 2) }
      else s := by
  obtain ⟨buf, chs, ls, hd, er⟩ := s
  simp only at hb
  subst hb
  rfl

/-- Processing a buffer holding exactly one structurally admissible frame:
the frame is removed, and it is dispatched exactly when its CRC matches. -/
lemma feed_single_frame (F : List Nat) (s : RxState) (hbuf : s.buf = [])
    (hhead : F.headD 0 = CRSF_SYNC) (hlen : F.length = F.getD 1 0 + 2)
    (h4 : 4 ≤ F.length) (h64 : F.length ≤ 64) :
    feed F s =
      if validate_frame F then
        handle_packet (F.getD 2 0) F { s with buf := [], handled := s.handled + 1 }
      else { s with buf := [] } := by
  rcases F with _ | ⟨b0, _ | ⟨b1, _ | ⟨b2, _ | ⟨b3, t⟩⟩⟩⟩ <;> simp at h4
  have hb0 : b0 = CRSF_SYNC := by simpa using hhead
  have hb1 : t.length + 4 = b1 + 2 := by simpa [List.length_cons] using hlen
  have h64t : t.length + 4 ≤ 64 := by simpa [List.length_cons] using h64
  have hfuel : (b0 :: b1 :: b2 :: b3 :: t).length = (t.length + 3) + 1 := by
    simp [List.length_cons]
  have hlen' : b1 + 2 = (b0 :: b1 :: b2 :: b3 :: t).length := by
    simp [List.length_cons]; omega
  have hgd : (b0 :: b1 :: b2 :: b3 :: t).getD 2 0 = b2 := rfl
  unfold feed
  rw [hbuf, List.nil_append, hfuel,
    processLoopF_cons (t.length + 3) _ b0 b1 b2 (b3 :: t) rfl]
  rw [if_neg (by simp [hb0]), if_neg (by omega), if_pos (le_of_eq hlen'), hlen',
    List.take_length, List.drop_length, hgd]
  by_cases hv : validate_frame (b0 :: b1 :: b2 :: b3 :: t)
  · rw [if_pos hv, if_pos hv]
    by_cases he : (handle_packet b2 (b0 :: b1 :: b2 :: b3 :: t)
        { s with buf := [], handled := s.handled + 1 }).err
    · rw [if_pos he]
    · rw [if_neg he, processLoopF_nil _ _ (handle_packet_buf _ _ _)]
  · rw [if_neg hv, if_neg hv]
    exact processLoopF_nil _ _ rfl

lemma processLoopF_short (fuel : Nat) (s : RxState) (h : s.buf.length ≤ 2) :
    processLoopF fuel s = s := by
  cases fuel with
  | zero => rfl
  | succ n =>
    obtain ⟨buf, chs, ls, hd, er⟩ := s
    simp only at h
    rcases buf with _ | ⟨a, _ | ⟨b, _ | ⟨c, t⟩⟩⟩
    · rfl
    · rfl
    · rfl
    · simp [List.length_cons] at h

lemma feed_to_processLoopF (bytes : List Nat) :
    feed bytes initState = processLoopF bytes.length { initState with buf := bytes } := rfl

lemma feed_nil (s : RxState) (h : s.buf = []) : feed [] s = s := by
  unfold feed
  rw [List.append_nil]
  exact processLoopF_nil _ _ h

/-- C6: resynchronization — two non-sync garbage bytes before a valid frame
are dropped one at a time, the run ends in exactly the state reached by
feeding the frame alone, and exactly one frame is dispatched. -/
theorem resync_after_garbage (F : List Nat) (h : ValidFrame F) :
    feed (0 :: 0 :: F) initState = feed F initState ∧
      (feed F initState).handled = 1 := by
  obtain ⟨hhead, hlen, h4, h64, hv⟩ := h
  constructor
  · rcases F with _ | ⟨f0, _ | ⟨f1, _ | ⟨f2, _ | ⟨f3, t⟩⟩⟩⟩ <;> simp at h4
    show processLoopF ((f0 :: f1 :: f2 :: f3 :: t).length + 1 + 1)
        { initState with buf := 0 :: 0 :: f0 :: f1 :: f2 :: f3 :: t } =
      processLoopF ((f0 :: f1 :: f2 :: f3 :: t).length)
        { initState with buf := f0 :: f1 :: f2 :: f3 :: t }
    rw [processLoopF_cons _ _ 0 0 f0 (f1 :: f2 :: f3 :: t) rfl, if_pos (by decide)]
    rw [processLoopF_cons _ _ 0 f0 f1 (f2 :: f3 :: t) rfl, if_pos (by decide)]
  · rw [feed_single_frame F initState rfl hhead hlen h4 h64, if_pos hv,
      handle_packet_handled]
    rfl

/-- Witness for C6 at a concrete valid link-statistics frame. -/
theorem resync_after_garbage_witness :
    ValidFrame (build_frame 0x14 [50, 60, 90, 10]) ∧
      (feed (0 :: 0 :: build_frame 0x14 [50, 60, 90, 10]) initState =
          feed (build_frame 0x14 [50, 60, 90, 10]) initState ∧
        (feed (build_frame 0x14 [50, 60, 90, 10]) initState).handled = 1) :=
  ⟨by decide, resync_after_garbage (build_frame 0x14 [50, 60, 90, 10]) (by decide)⟩

lemma feed_split (F : List Nat) (k : Nat) (hhead : F.headD 0 = CRSF_SYNC)
    (hlen : F.length = F.getD 1 0 + 2) (h4 : 4 ≤ F.length) (h64 : F.length ≤ 64)
    (hk : k ≤ F.length) :
    feed (F.drop k) (feed (F.take k) initState) = feed F initState := by
  rcases eq_or_lt_of_le hk with hk' | hk'
  · -- the first cycle already receives the whole frame
    have htake : F.take k = F := by rw [hk']; exact List.take_length F
    have hdrop : F.drop k = [] := by rw [hk']; exact List.drop_length F
    rw [htake, hdrop]
    apply feed_nil
    rw [feed_single_frame F initState rfl hhead hlen h4 h64]
    split_ifs with hv
    · exact handle_packet_buf _ _ _
    · rfl
  · -- a strict prefix is buffered untouched, the second cycle sees the whole frame
    have hfirst : feed (F.take k) initState = { initState with buf := F.take k } := by
      rw [feed_to_processLoopF]
      rcases le_or_lt k 2 with hk2 | hk2
      · have h2 : (F.take k).length ≤ 2 := by
          rw [List.length_take]; omega
        exact processLoopF_short _ _ h2
      · rcases F with _ | ⟨f0, _ | ⟨f1, _ | ⟨f2, _ | ⟨f3, t⟩⟩⟩⟩ <;> simp at h4
        have hb0 : f0 = CRSF_SYNC := by simpa using hhead
        have hb1 : t.length + 4 = f1 + 2 := by simpa [List.length_cons] using hlen
        have h64t : t.length + 4 ≤ 64 := by simpa [List.length_cons] using h64
        have hkF : k < t.length + 4 := by simpa [List.length_cons] using hk'
        obtain ⟨m, rfl⟩ : ∃ m, k = m + 3 := ⟨k - 3, by omega⟩
        -- k = m + 3 > 2: the prefix holds the header but not the whole frame
        have hT : ((f3 :: t).take m).length ≤ m := by
          simpa [List.length_take] using min_le_left m (f3 :: t).length
        show processLoopF (((f3 :: t).take m).length + 1 + 1 + 1)
            { initState with buf := f0 :: f1 :: f2 :: (f3 :: t).take m } = _
        rw [processLoopF_cons _ _ f0 f1 f2 ((f3 :: t).take m) rfl,
          if_neg (by simp [hb0]), if_neg (by omega),
          if_neg (by simp only [List.length_cons]; omega)]
        rfl
    have hsecond : feed (F.drop k) { initState with buf := F.take k } =
        feed F initState := by
      show processLoopF ((F.take k ++ F.drop k).length)
          { initState with buf := F.take k ++ F.drop k } = feed F initState
      rw [List.take_append_drop]
      rfl
    rw [hfirst, hsecond]

/-- C7: split-frame equivalence — a valid frame delivered as an arbitrary
prefix in one processing cycle and the remainder in the next leaves the same
channel state and link statistics as delivering it whole. -/
theorem split_frame_equiv (F : List Nat) (k : Nat) (h : ValidFrame F)
    (hk : k ≤ F.length) :
    (feed (F.drop k) (feed (F.take k) initState)).channels =
        (feed F initState).channels ∧
      (feed (F.drop k) (feed (F.take k) initState)).linkStats =
        (feed F initState).linkStats := by
  obtain ⟨hhead, hlen, h4, h64, hv⟩ := h
  rw [feed_split F k hhead hlen h4 h64 hk]
  exact ⟨rfl, rfl⟩

/-- Witness for C7: the link-statistics frame split after 3 bytes. -/
theorem split_frame_equiv_witness :
    ValidFrame (build_frame 0x14 [50, 60, 90, 10]) ∧
      3 ≤ (build_frame 0x14 [50, 60, 90, 10]).length ∧
      (((feed ((build_frame 0x14 [50, 60, 90, 10]).drop 3)
            (feed ((build_frame 0x14 [50, 60, 90, 10]).take 3) initState)).channels =
          (feed (build_frame 0x14 [50, 60, 90, 10]) initState).channels) ∧
        (feed ((build_frame 0x14 [50, 60, 90, 10]).drop 3)
            (feed ((build_frame 0x14 [50, 60, 90, 10]).take 3) initState)).linkStats =
          (feed (build_frame 0x14 [50, 60, 90, 10]) initState).linkStats) :=
  ⟨by decide, by decide,
    split_frame_equiv (build_frame 0x14 [50, 60, 90, 10]) 3 (by decide) (by decide)⟩

lemma getElem?_eq_some_getD (l : List Nat) (i : Nat) (h : i < l.length) :
    l[i]? = some (l.getD i 0) := by
  rw [List.getElem?_eq_getElem h, List.getD_eq_getElem?_getD, List.getElem?_eq_getElem h]
  rfl

/-- C8 (amended): a validated `LINK_STATISTICS` frame of total length at
least 7 replaces the stored link statistics wholesale with
`rssi1 = -frame[3]`, `rssi2 = -frame[4]`, `link_quality = frame[5]` and `snr`
the signed two's-complement reading of `frame[6]`, whatever record was stored
before. -/
theorem link_stats_decode_replaces (F : List Nat) (s : RxState) (h : ValidFrame F)
    (htype : F.getD 2 0 = LINK_STATISTICS) (h7 : 7 ≤ F.length) (hbuf : s.buf = []) :
    (feed F s).linkStats =
      some { rssi1 := -(F.getD 3 0 : Int), rssi2 := -(F.getD 4 0 : Int),
             link_quality := (F.getD 5 0 : Int),
             snr := if F.getD 6 0 < 128 then (F.getD 6 0 : Int)
                    else (F.getD 6 0 : Int) - 256 } := by
  obtain ⟨hhead, hlen, h4, h64, hv⟩ := h
  have hdec : decode_link_stats F =
      some { rssi1 := -(F.getD 3 0 : Int), rssi2 := -(F.getD 4 0 : Int),
             link_quality := (F.getD 5 0 : Int),
             snr := if F.getD 6 0 < 128 then (F.getD 6 0 : Int)
                    else (F.getD 6 0 : Int) - 256 } := by
    unfold decode_link_stats
    rw [getElem?_eq_some_getD F 3 (by omega), getElem?_eq_some_getD F 4 (by omega),
      getElem?_eq_some_getD F 5 (by omega), getElem?_eq_some_getD F 6 (by omega)]
  rw [feed_single_frame F s hbuf hhead hlen h4 h64, if_pos hv, htype]
  unfold handle_packet
  rw [if_neg (by decide), if_pos rfl, hdec]

/-- Witness for C8 at the frame with payload `[50, 60, 90, 10]`, which decodes
to `rssi1 = -50`, `rssi2 = -60`, `link_quality = 90`, `snr = 10`. -/
theorem link_stats_decode_replaces_witness :
    (ValidFrame (build_frame 0x14 [50, 60, 90, 10]) ∧
        (build_frame 0x14 [50, 60, 90, 10]).getD 2 0 = LINK_STATISTICS ∧
        7 ≤ (build_frame 0x14 [50, 60, 90, 10]).length ∧ initState.buf = []) ∧
      (feed (build_frame 0x14 [50, 60, 90, 10]) initState).linkStats =
        some { rssi1 := -50, rssi2 := -60, link_quality := 90, snr := 10 } := by
  refine ⟨⟨by decide, by decide, by decide, rfl⟩, ?_⟩
  have := link_stats_decode_replaces (build_frame 0x14 [50, 60, 90, 10]) initState
    (by decide) (by decide) (by decide) rfl
  rw [this]
  decide

/-- Counterexample to C8 as stated: the 4-byte frame `[0xC8, 2, 0x14, 0xAC]`
is a validated `LINK_STATISTICS` frame, yet no record is stored — the decoder
raises an `IndexError` reading `data[4]` instead of replacing LinkStats. -/
theorem link_stats_short_frame_counterexample :
    ValidFrame [0xC8, 2, 0x14, 0xAC] ∧
      [0xC8, 2, 0x14, 0xAC].getD 2 0 = LINK_STATISTICS ∧
      (feed [0xC8, 2, 0x14, 0xAC] initState).linkStats = none ∧
      (feed [0xC8, 2, 0x14, 0xAC] initState).err = true := by
  decide

/-- C9: a candidate frame that fails CRC validation, or validates but carries
a type byte other than `RC_CHANNELS_PACKED` and `LINK_STATISTICS`, leaves the
channel state, the link statistics and the error flag unchanged; only the
input buffer is consumed. -/
theorem reject_unknown_no_mutation (F : List Nat) (s : RxState) (hbuf : s.buf = [])
    (hhead : F.headD 0 = CRSF_SYNC) (hlen : F.length = F.getD 1 0 + 2)
    (h4 : 4 ≤ F.length) (h64 : F.length ≤ 64)
    (hrej : validate_frame F = false ∨
      (validate_frame F = true ∧ F.getD 2 0 ≠ RC_CHANNELS_PACKED ∧
        F.getD 2 0 ≠ LINK_STATISTICS)) :
    (feed F s).channels = s.channels ∧ (feed F s).linkStats = s.linkStats ∧
      (feed F s).err = s.err ∧ (feed F s).buf = [] := by
  rw [feed_single_frame F s hbuf hhead hlen h4 h64]
  rcases hrej with hrej | ⟨hval, ht1, ht2⟩
  · rw [if_neg (by simp [hrej])]
    exact ⟨rfl, rfl, rfl, rfl⟩
  · rw [if_pos hval]
    unfold handle_packet
    rw [if_neg ht1, if_neg ht2]
    exact ⟨rfl, rfl, rfl, rfl⟩

/-- Witness for C9 at a validated GPS-type frame (type `0x02`, not decoded). -/
theorem reject_unknown_no_mutation_witness :
    (initState.buf = [] ∧ (build_frame 0x02 [1, 2, 3]).headD 0 = CRSF_SYNC ∧
        (build_frame 0x02 [1, 2, 3]).length = (build_frame 0x02 [1, 2, 3]).getD 1 0 + 2 ∧
        4 ≤ (build_frame 0x02 [1, 2, 3]).length ∧ (build_frame 0x02 [1, 2, 3]).length ≤ 64 ∧
        validate_frame (build_frame 0x02 [1, 2, 3]) = true ∧
        (build_frame 0x02 [1, 2, 3]).getD 2 0 ≠ RC_CHANNELS_PACKED ∧
        (build_frame 0x02 [1, 2, 3]).getD 2 0 ≠ LINK_STATISTICS) ∧
      ((feed (build_frame 0x02 [1, 2, 3]) initState).channels = initState.channels ∧
        (feed (build_frame 0x02 [1, 2, 3]) initState).linkStats = initState.linkStats ∧
        (feed (build_frame 0x02 [1, 2, 3]) initState).err = initState.err ∧
        (feed (build_frame 0x02 [1, 2, 3]) initState).buf = []) :=
  ⟨⟨rfl, by decide, by decide, by decide, by decide, by decide, by decide, by decide⟩,
    reject_unknown_no_mutation (build_frame 0x02 [1, 2, 3]) initState rfl
      (by decide) (by decide) (by decide) (by decide)
      (Or.inr ⟨by decide, by decide, by decide⟩)⟩

/-- C1 (amended): the decoder converts each extracted 11-bit value with
`int(v * 0.62 + 881)` — truncation toward zero, the floor of the exact value
`(62 * v + 88100) / 100` — not rounding to nearest; a frame whose 11-bit
fields are all 0 sets every channel to 881 µs and all-2047 fields set every
channel to 2150 µs (the two endpoints where truncation and rounding agree). -/
theorem channels_truncate_conversion :
    (∀ j, (feed (build_frame 0x16 (List.replicate 22 0)) initState).channels j = 881) ∧
      (∀ j, (feed (build_frame 0x16 (List.replicate 22 0xFF)) initState).channels j = 2150) ∧
      ∀ v : Nat, convertUs v = (62 * v + 88100) / 100 := by
  refine ⟨by decide, by decide, ?_⟩
  intro v
  unfold convertUs
  rw [show (88100 : Nat) = 100 * 881 from rfl, Nat.add_mul_div_left _ _ (by norm_num)]
  omega

/-- Counterexample to C1 as stated: in a valid RC_CHANNELS_PACKED frame whose
first 11-bit field is 1, channel 1 is stored as 881, but
`round(1 * 0.62 + 881) = round(881.62) = 882`. -/
theorem channels_round_counterexample :
    (feed (build_frame 0x16 (1 :: List.replicate 21 0)) initState).channels
        ⟨0, by norm_num⟩ = 881 ∧
      roundSpecUs 1 = 882 ∧ (881 : Nat) ≠ 882 := by
  decide

/-- C2: the 4-byte frame `[0xC8, 0x02, 0x16, 0xD3]` is admitted by the
synchronizer (total length 4 lies in `[4, 64]`), passes CRC validation and is
dispatched, but the channel decoder's unguarded first-byte read
`channel_data[byte_index]` goes out of range at channel index 1, raising an
`IndexError` instead of treating the absent bytes as zero. -/
theorem rc_short_frame_index_error :
    ValidFrame [0xC8, 0x02, 0x16, 0xD3] ∧
      [0xC8, 0x02, 0x16, 0xD3].getD 2 0 = RC_CHANNELS_PACKED ∧
      (feed [0xC8, 0x02, 0x16, 0xD3] initState).handled = 1 ∧
      (feed [0xC8, 0x02, 0x16, 0xD3] initState).err = true ∧
      (decode_channels [0xC8, 0x02, 0x16, 0xD3] initState.channels).2 = false := by
  decide

/-- C3 (amended): `encode_battery(11.8, 0.0, 0, 100)` — with
`voltage_scaled = int(11.8 * 10) = 118 = 0x76` and `current_scaled = 0` under
IEEE-754 double semantics — produces the 11-byte frame
`[0xC8, 9, 0x08, 0x00, 0x76, 0x00, 0x00, 0x00, 0x00, 100, CRC]` with a 7-byte
payload packed big-endian and the trailing CRC equal to
`crc8([0x08, 0x00, 0x76, 0x00, 0x00, 0x00, 0x00, 100])`. -/
theorem battery_encode_frame :
    battery_frame 118 0 0 100 =
        [0xC8, 9, 0x08, 0x00, 0x76, 0x00, 0x00, 0x00, 0x00, 100,
          crc8_data [0x08, 0x00, 0x76, 0x00, 0x00, 0x00, 0x00, 100]] ∧
      (battery_frame 118 0 0 100).length = 11 ∧
      (pack16be 118 ++ pack16be 0 ++ pack16be 0 ++ [100]).length = 7 ∧
      crc8_data [0x08, 0x00, 0x76, 0x00, 0x00, 0x00, 0x00, 100] = 251 := by
  decide

/-- Counterexample to C3 as stated: the frame listed by the claim has 11
bytes (`SYNC`, `LENGTH`, `TYPE`, 7 payload bytes, `CRC`), not 10. -/
theorem battery_frame_length_counterexample :
    (battery_frame 118 0 0 100).length = 11 ∧ (battery_frame 118 0 0 100).length ≠ 10 := by
  decide

/-- A channel value is either the construction default 1500 or a decoded
microsecond value in `[881, 2150]`, the image of `0..2047` under the
conversion. -/
def ChannelOk (v : Nat) : Prop := v = 1500 ∨ (881 ≤ v ∧ v ≤ 2150)

instance (v : Nat) : Decidable (ChannelOk v) := by
  unfold ChannelOk; infer_instance

lemma convertUs_bounds (v : Nat) (hv : v ≤ 2047) :
    881 ≤ convertUs v ∧ convertUs v ≤ 2150 := by
  unfold convertUs
  have h1 : 62 * v / 100 ≤ 62 * 2047 / 100 := Nat.div_le_div_right (by omega)
  have h2 : 62 * 2047 / 100 = 1269 := by norm_num
  omega

lemma decodeChannelsGo_ok (cd : List Nat) :
    ∀ (n i : Nat) (chs : Fin 16 → Nat), (∀ j, ChannelOk (chs j)) →
      ∀ j, ChannelOk ((decodeChannelsGo cd i n chs).1 j) := by
  intro n
  induction n with
  | zero => exact fun i chs h j => h j
  | succ m ih =>
    intro i chs h j
    rw [decodeChannelsGo]
    split_ifs with h16 hb
    · apply ih
      intro j'
      rcases eq_or_ne j' ⟨i, h16⟩ with he | hne
      · rw [he, Function.update_same]
        refine Or.inr (convertUs_bounds _ ?_)
        have hand : channelRaw cd i hb ≤ 0x7FF := Nat.and_le_right
        exact le_trans hand (by norm_num)
      · rw [Function.update_noteq hne]
        exact h j'
    · exact h j
    · exact h j

lemma handle_packet_channels_ok (pt : Nat) (data : List Nat) (s : RxState)
    (h : ∀ j, ChannelOk (s.channels j)) :
    ∀ j, ChannelOk ((handle_packet pt data s).channels j) := by
  unfold handle_packet
  split_ifs with h1 h2
  · exact decodeChannelsGo_ok _ _ _ _ h
  · cases hls : decode_link_stats data <;> simp [hls] <;> exact h
  · exact h

lemma processLoopF_channels_ok :
    ∀ (fuel : Nat) (s : RxState), (∀ j, ChannelOk (s.channels j)) →
      ∀ j, ChannelOk ((processLoopF fuel s).channels j) := by
  intro fuel
  induction fuel with
  | zero => exact fun s h j => h j
  | succ m ih =>
    intro s h j
    obtain ⟨buf, chs, ls, hd, er⟩ := s
    rcases buf with _ | ⟨b0, _ | ⟨b1, _ | ⟨b2, t⟩⟩⟩
    · exact h j
    · exact h j
    · exact h j
    · rw [processLoopF_cons m _ b0 b1 b2 t rfl]
      split_ifs with hc1 hc2 hc3 hc4 hc5
      · apply ih; exact h
      · apply ih; exact h
      · apply handle_packet_channels_ok; exact h
      · apply ih; apply handle_packet_channels_ok; exact h
      · apply ih; exact h
      · exact h j

/-- C10: the channel mapping invariant — at construction every channel is
1500; after any processing cycle from a state satisfying the invariant, every
channel value is still either 1500 or a decoded value in `[881, 2150]`, and
`get_channels` returns a 16-entry mapping whose keys are exactly `1..16`. -/
theorem channel_state_invariant (s : RxState) (bytes : List Nat)
    (h : ∀ j, ChannelOk (s.channels j)) :
    (∀ j, ChannelOk (initState.channels j)) ∧
      (∀ j, ChannelOk ((feed bytes s).channels j)) ∧
      (get_channels (feed bytes s)).length = 16 ∧
      (get_channels (feed bytes s)).map Prod.fst =
        [1, 2, 3, 4, 5, 6, 7, 8, 9, 10, 11, 12, 13, 14, 15, 16] := by
  refine ⟨fun j => Or.inl rfl, ?_, ?_, ?_⟩
  · intro j
    unfold feed
    apply processLoopF_channels_ok
    exact h
  · simp [get_channels]
  · rw [get_channels, List.map_ofFn]
    have hfst : (Prod.fst ∘ fun j : Fin 16 => ((j : Nat) + 1, (feed bytes s).channels j)) =
        fun j : Fin 16 => (j : Nat) + 1 := rfl
    rw [hfst]
    decide

/-- Witness for C10: the freshly constructed receiver fed the all-zero RC
frame. -/
theorem channel_state_invariant_witness :
    (∀ j, ChannelOk (initState.channels j)) ∧
      ((∀ j, ChannelOk (initState.channels j)) ∧
        (∀ j, ChannelOk ((feed (build_frame 0x16 (List.replicate 22 0)) initState).channels j)) ∧
        (get_channels (feed (build_frame 0x16 (List.replicate 22 0)) initState)).length = 16 ∧
        (get_channels (feed (build_frame 0x16 (List.replicate 22 0)) initState)).map Prod.fst =
          [1, 2, 3, 4, 5, 6, 7, 8, 9, 10, 11, 12, 13, 14, 15, 16]) :=
  ⟨by decide,
    channel_state_invariant initState (build_frame 0x16 (List.replicate 22 0)) (by decide)⟩

end ELRS
